import Mathlib

/-!
Verification of the `status-bar` repository: a Wayland layer-shell overlay
surface driven by an embedded Lua script.  The development shallowly embeds
the data model of `src/window/mod.rs` (Lua config extraction into `Opts`)
and the protocol state machine of `src/window/wayland.rs` (`LayerState`
callbacks, the `SimpleLayer::run` event drain, and the `draw` cycle as an
observable action trace), and proves the spec's claims about them.

Notes on the embedding:
* Rust panics / `expect` calls are modelled as `Except.error msg` with the
  panic message, since every such failure aborts the process.
* Lua values are modelled as nil / integer / string / table (association
  list).  mlua's string-to-number coercion is not modelled; no claim
  depends on it and all concrete inputs below avoid it.
* `f64` pointer coordinates are pass-through payloads in the code (never
  computed with), so they are modelled as integers.
* Wall-clock time (`Instant`, the fps value) is not modelled; the fps
  overlay appears in the draw trace as an action without a payload.
-/

namespace StatusBar

/-- Modifier state attached to input events (`Modifiers` in
`src/window/mod.rs`, all fields `bool`, `derive Default`). -/
structure Modifiers where
  control : Bool
  shift : Bool
  alt : Bool
  meta : Bool
deriving DecidableEq, Repr

/-- `Modifiers::default()`: every field false. -/
def Modifiers.default : Modifiers :=
  { control := false, shift := false, alt := false, meta := false }

/-- Wayland surfaces are identified by an opaque id; equality is the only
operation the code performs on them. -/
abbrev Surface := Nat

/-- Opaque payload of a keyboard `KeyEvent` (the code forwards it
unchanged). -/
abbrev KeyEvent := Nat

/-- Seat capability (`smithay_client_toolkit::seat::Capability`). -/
inductive Capability where
  | Keyboard
  | Pointer
  | Touch
deriving DecidableEq, Repr

/-- Kind of a pointer event (`PointerEventKind`); button/axis payloads are
not inspected by the code beyond cloning, so they are elided. -/
inductive PointerEventKind where
  | Enter
  | Leave
  | Motion
  | Press
  | Release
  | Axis
deriving DecidableEq, Repr

/-- A pointer event as delivered to `PointerHandler::pointer_frame`:
a target surface, a position, and a kind. -/
structure PointerEvent where
  surface : Surface
  position : Int × Int
  kind : PointerEventKind
deriving DecidableEq, Repr

/-- The application-level event union (`Event` in `src/window/mod.rs`). -/
inductive Event where
  | Resized (width height : Nat)
  | PointerButtonPressed (button : PointerEvent) (modifiers : Modifiers)
  | PointerButtonReleased (button : PointerEvent) (modifiers : Modifiers)
  | PointerMoved (x y : Int)
  | PointerEntered (x y : Int)
  | PointerLeft
  | KeyboardKeyPressed (key : KeyEvent) (modifiers : Modifiers)
  | KeyboardKeyReleased (key : KeyEvent) (modifiers : Modifiers)
  | KeyboardEntered
  | KeyboardLeft
  | Exit
deriving DecidableEq, Repr

/-- The window-side layer enum (`Layer` in `src/window/mod.rs`). -/
inductive Layer where
  | Background
  | Bottom
  | Overlay
  | Top
deriving DecidableEq, Repr

/-- The protocol-side layer enum (`wlr_layer::Layer`). -/
inductive WlrLayer where
  | Background
  | Bottom
  | Overlay
  | Top
deriving DecidableEq, Repr

/-- `impl From<super::Layer> for Layer` in `src/window/wayland.rs`:
variant-by-variant identity map into the protocol enum. -/
def Layer.toWlr : Layer → WlrLayer
  | .Background => .Background
  | .Bottom => .Bottom
  | .Overlay => .Overlay
  | .Top => .Top

/-- `Layer::from_str` (derive_more `FromStr` against the lowercase
`Display` names documented in the spec). -/
def Layer.from_str (s : String) : Option Layer :=
  if s = "background" then some .Background
  else if s = "bottom" then some .Bottom
  else if s = "overlay" then some .Overlay
  else if s = "top" then some .Top
  else none

/-- The `wlr_layer::Anchor` bitflags as four booleans
(TOP = 1, BOTTOM = 2, LEFT = 4, RIGHT = 8). -/
structure Anchor where
  top : Bool
  bottom : Bool
  left : Bool
  right : Bool
deriving DecidableEq, Repr

/-- `Anchor::from_bits`: decodes a `u32` bitmask, rejecting unknown bits
(any bit beyond the low four). -/
def Anchor.from_bits (bits : Nat) : Option Anchor :=
  if bits < 16 then
    some { top := bits.testBit 0, bottom := bits.testBit 1,
           left := bits.testBit 2, right := bits.testBit 3 }
  else
    none

/-- Surface margins (`Margin` in `src/window/mod.rs`), `derive Default`
giving 0 for every component. -/
structure Margin where
  top : Int
  right : Int
  bottom : Int
  left : Int
deriving DecidableEq, Repr

/-- `Margin::default()`. -/
def Margin.default : Margin := { top := 0, right := 0, bottom := 0, left := 0 }

/-- Window options (`Opts` in `src/window/mod.rs`).  The Rust field
`namespace` is a Lean keyword and is rendered here as `ns`. -/
structure Opts where
  width : Nat
  height : Nat
  exclusive_zone : Int
  layer : Layer
  anchor : Option Anchor
  margin : Margin
  ns : Option String
deriving DecidableEq, Repr

/-- `Opts::default()` in `src/window/mod.rs`. -/
def Opts.default : Opts :=
  { width := 100, height := 100, exclusive_zone := -1, layer := .Bottom,
    anchor := Anchor.from_bits 1, margin := Margin.default, ns := none }

namespace Lua

/-- Lua values as the code observes them: nil, integers, strings and
(association-list) tables. -/
inductive Value where
  | vnil
  | int (n : Int)
  | str (s : String)
  | table (fields : List (String × Value))
deriving Repr

/-- Table indexing: a missing key reads as nil. -/
def getField : List (String × Value) → String → Value
  | [], _ => .vnil
  | (k, v) :: rest, key => if k = key then v else getField rest key

/-- mlua conversion of a Lua value to `u32` (`FromLua for u32`): only an
integer in range succeeds. -/
def toU32 : Value → Except String Nat
  | .int n =>
      if 0 ≤ n ∧ n < 4294967296 then .ok n.toNat
      else .error "error converting Lua value to integer"
  | _ => .error "error converting Lua value to integer"

/-- mlua conversion of a Lua value to `i32`. -/
def toI32 : Value → Except String Int
  | .int n =>
      if -2147483648 ≤ n ∧ n < 2147483648 then .ok n
      else .error "error converting Lua value to integer"
  | _ => .error "error converting Lua value to integer"

/-- mlua conversion of a Lua value to `String`. -/
def toStr : Value → Except String String
  | .str s => .ok s
  | _ => .error "error converting Lua value to string"

end Lua

/-- `impl FromLua for Margin`: each component is read with
`unwrap_or_default()`, so a missing or ill-typed component becomes 0; a
non-table value is a conversion error. -/
def Margin.from_lua (v : Lua.Value) : Except String Margin :=
  match v with
  | .table t =>
      .ok { top := match Lua.toI32 (Lua.getField t "top") with
              | .ok n => n
              | .error _ => 0,
            right := match Lua.toI32 (Lua.getField t "right") with
              | .ok n => n
              | .error _ => 0,
            bottom := match Lua.toI32 (Lua.getField t "bottom") with
              | .ok n => n
              | .error _ => 0,
            left := match Lua.toI32 (Lua.getField t "left") with
              | .ok n => n
              | .error _ => 0 }
  | _ => .error "cannot convert type to Margin"

/-- `t.get::<Option<u32>>("anchor").unwrap()` — the first read
`Opts::from_lua` performs: nil gives `none`, an in-range integer gives
`some`, anything else panics with a conversion error. -/
def Opts.readAnchorBits (t : List (String × Lua.Value)) : Except String (Option Nat) :=
  match Lua.getField t "anchor" with
  | .vnil => .ok none
  | w => (Lua.toU32 w).map some

/-- `t.get::<u32>(k).expect(msg)`: any failure (missing key or ill-typed
value) aborts with `msg`. -/
def Opts.readU32 (t : List (String × Lua.Value)) (k msg : String) : Except String Nat :=
  match Lua.toU32 (Lua.getField t k) with
  | .ok n => .ok n
  | .error _ => .error msg

/-- The `layer` field of `Opts::from_lua`: a present string is parsed with
`Layer::from_str` (`expect("unexpected layer type")`); a missing or
non-string value panics with "a window must have a set layer". -/
def Opts.readLayer (t : List (String × Lua.Value)) : Except String Layer :=
  match Lua.getField t "layer" with
  | .str s =>
      match Layer.from_str s with
      | some l => .ok l
      | none => .error "unexpected layer type"
  | _ => .error "a window must have a set layer"

/-- `t.get::<Option<String>>("namespace")?`. -/
def Opts.readNamespace (t : List (String × Lua.Value)) : Except String (Option String) :=
  match Lua.getField t "namespace" with
  | .vnil => .ok none
  | w => (Lua.toStr w).map some

/-- `t.get::<Option<Margin>>("margin")?.unwrap_or_default()`. -/
def Opts.readMargin (t : List (String × Lua.Value)) : Except String Margin :=
  match Lua.getField t "margin" with
  | .vnil => .ok Margin.default
  | w => Margin.from_lua w

/-- `t.get::<Option<i32>>("exclusive_zone")?.unwrap_or(-1)`. -/
def Opts.readExclusiveZone (t : List (String × Lua.Value)) : Except String Int :=
  match Lua.getField t "exclusive_zone" with
  | .vnil => .ok (-1)
  | w => Lua.toI32 w

/-- The table case of `Opts::from_lua`, with the reads sequenced in Rust
evaluation order: the anchor bits first, then the struct literal fields
width, height, layer, namespace, margin, exclusive_zone; the first
failing read aborts with its message. -/
def Opts.from_lua_table (t : List (String × Lua.Value)) : Except String Opts :=
  match Opts.readAnchorBits t with
    | .error e => .error e
    | .ok bits =>
      match Opts.readU32 t "width" "a window must have a set width" with
      | .error e => .error e
      | .ok width =>
        match Opts.readU32 t "height" "a window must have a set height" with
        | .error e => .error e
        | .ok height =>
          match Opts.readLayer t with
          | .error e => .error e
          | .ok layer =>
            match Opts.readNamespace t with
            | .error e => .error e
            | .ok ns =>
              match Opts.readMargin t with
              | .error e => .error e
              | .ok margin =>
                match Opts.readExclusiveZone t with
                | .error e => .error e
                | .ok exclusive_zone =>
                  .ok { width := width, height := height,
                        exclusive_zone := exclusive_zone, layer := layer,
                        anchor := bits.bind Anchor.from_bits,
                        margin := margin, ns := ns }

/-- `impl FromLua for Opts` (`src/window/mod.rs:108-130`): a table is
extracted field by field; anything else panics with
"WindowOpts is not a table". -/
def Opts.from_lua (v : Lua.Value) : Except String Opts :=
  match v with
  | .table t => Opts.from_lua_table t
  | _ => .error "WindowOpts is not a table"

/-- Observable protocol-side actions of one `LayerState::draw` call
(`src/window/wayland.rs:489-551`), in the order the code performs them. -/
inductive DrawAct where
  | create_buffer (width height stride : Nat)
  | canvas_new (width height : Nat)
  | clear (colour : Nat)
  | draw_fps
  | lua_draw
  | damage_buffer (x y : Int) (w h : Nat)
  | frame_request
  | attach
  | commit
deriving DecidableEq, Repr

/-- The mutable session state (`LayerState` in `src/window/wayland.rs`).
Protocol handles (`shm`, `pool`, the Lua VM, `last_frame`,
`dispatched_events`, registry/seat/output state) are owned resources the
claims never inspect and are elided; `surface` is the id of
`layer.wl_surface()`. -/
structure LayerState where
  should_exit : Bool
  first_configure : Bool
  width : Nat
  height : Nat
  exclusive_zone : Int
  surface : Surface
  pointer : Option Nat
  keyboard : Option Nat
  keyboard_focus : Bool
  events : List Event
  modifiers : Modifiers
deriving DecidableEq, Repr

namespace LayerState

/-- `self.events.push(e)` (Vec push: append at the back). -/
def pushEvent (s : LayerState) (e : Event) : LayerState :=
  { s with events := s.events ++ [e] }

/-- `LayerState::draw`: acquire a buffer, build a Canvas, clear to the
fixed background 0xFF707070, overlay the fps counter, call the script's
`draw`, damage the full width×height region, request the next frame
callback, then attach and commit.  The state is unchanged apart from the
unmodelled `last_frame` timestamp; the return value is the action trace. -/
def draw (s : LayerState) : LayerState × List DrawAct :=
  (s, [ .create_buffer s.width s.height (s.width * 4),
        .canvas_new s.width s.height,
        .clear 0xFF707070,
        .draw_fps,
        .lua_draw,
        .damage_buffer 0 0 s.width s.height,
        .frame_request,
        .attach,
        .commit ])

/-- `CompositorHandler::frame`: every frame callback draws. -/
def frame (s : LayerState) : LayerState × List DrawAct :=
  s.draw

/-- `LayerShellHandler::configure`: adopt the proposed size
(`NonZeroU32::new(x).map_or(256, get)` — zero becomes 256) and draw
immediately on the first configure only. -/
def configure (s : LayerState) (new_size : Nat × Nat) : LayerState × List DrawAct :=
  let s := { s with
    width := if new_size.1 = 0 then 256 else new_size.1,
    height := if new_size.2 = 0 then 256 else new_size.2 }
  if s.first_configure then
    ({ s with first_configure := false }).draw
  else
    (s, [])

/-- `LayerShellHandler::closed`: enqueue `Exit` and set the termination
flag. -/
def closed (s : LayerState) : LayerState :=
  { s with events := s.events ++ [.Exit], should_exit := true }

/-- `SeatHandler::new_capability`: create the keyboard / pointer object
only when the corresponding field is `None`; `obj` stands for the object
the seat would hand back. -/
def new_capability (s : LayerState) (capability : Capability) (obj : Nat) : LayerState :=
  let s :=
    if capability = .Keyboard ∧ s.keyboard = none then
      { s with keyboard := some obj }
    else s
  if capability = .Pointer ∧ s.pointer = none then
    { s with pointer := some obj }
  else s

/-- `SeatHandler::remove_capability`: release and drop the keyboard /
pointer object only when the corresponding field is `Some`. -/
def remove_capability (s : LayerState) (capability : Capability) : LayerState :=
  let s :=
    if capability = .Keyboard ∧ s.keyboard ≠ none then
      { s with keyboard := none }
    else s
  if capability = .Pointer ∧ s.pointer ≠ none then
    { s with pointer := none }
  else s

/-- `KeyboardHandler::enter`: take keyboard focus only when the entered
surface is this session's own surface; no event is appended. -/
def kbd_enter (s : LayerState) (surface : Surface) : LayerState :=
  if s.surface = surface then { s with keyboard_focus := true } else s

/-- `KeyboardHandler::leave`: drop keyboard focus only for the own
surface; no event is appended. -/
def kbd_leave (s : LayerState) (surface : Surface) : LayerState :=
  if s.surface = surface then { s with keyboard_focus := false } else s

/-- `KeyboardHandler::press_key`: append a key-pressed event carrying
`Modifiers::default()`. -/
def press_key (s : LayerState) (event : KeyEvent) : LayerState :=
  s.pushEvent (.KeyboardKeyPressed event Modifiers.default)

/-- `KeyboardHandler::release_key`: append a key-released event carrying
`Modifiers::default()`. -/
def release_key (s : LayerState) (event : KeyEvent) : LayerState :=
  s.pushEvent (.KeyboardKeyReleased event Modifiers.default)

/-- `KeyboardHandler::update_modifiers`: only logs; the stored
`self.modifiers` is never written. -/
def update_modifiers (s : LayerState) (_modifiers : Nat) : LayerState :=
  s

/-- Body of the `pointer_frame` loop for one delivered pointer event:
events for other surfaces are skipped, Enter/Leave/Motion append
position events, Press/Release append button events carrying the stored
`self.modifiers`, Axis is ignored. -/
def pfStep (s : LayerState) (event : PointerEvent) : LayerState :=
  if event.surface ≠ s.surface then s
  else
    match event.kind with
    | .Enter => s.pushEvent (.PointerEntered event.position.1 event.position.2)
    | .Leave => s.pushEvent .PointerLeft
    | .Motion => s.pushEvent (.PointerMoved event.position.1 event.position.2)
    | .Press => s.pushEvent (.PointerButtonPressed event s.modifiers)
    | .Release => s.pushEvent (.PointerButtonReleased event s.modifiers)
    | .Axis => s

/-- `PointerHandler::pointer_frame`: fold `pfStep` over the delivered
batch. -/
def pointer_frame (s : LayerState) (events : List PointerEvent) : LayerState :=
  events.foldl pfStep s

end LayerState

namespace SimpleLayer

/-- `SimpleLayer::handle_event`: everything is logged; only `Exit`
changes state, by setting the termination flag. -/
def handle_event (s : LayerState) (event : Event) : LayerState :=
  match event with
  | .Exit => { s with should_exit := true }
  | _ => s

/-- `SimpleLayer::exit`: push an `Exit` event. -/
def exit (s : LayerState) : LayerState :=
  s.pushEvent .Exit

end SimpleLayer

/-- The `for event in tmp_events.drain(..)` loop of `SimpleLayer::run`:
handle each event in order and return as soon as `should_exit` is
observed.  Returns the final state, the list of events `handle_event`
observed (in order), and whether `run` returned. -/
def drainLoop (s : LayerState) : List Event → LayerState × List Event × Bool
  | [] => (s, [], false)
  | e :: rest =>
    let s := SimpleLayer.handle_event s e
    if s.should_exit then (s, [e], true)
    else
      let (s, handled, ret) := drainLoop s rest
      (s, e :: handled, ret)

/-- One drain phase of `SimpleLayer::run`: `mem::swap` the live queue for
an empty one, then iterate the snapshot. -/
def runTick (s : LayerState) : LayerState × List Event × Bool :=
  drainLoop { s with events := [] } s.events

/-- Variant of the drain in which, after each handled event, a producer
appends a batch of events to the (already swapped) live queue — the
situation the swap is designed to make safe. -/
def drainLoopP (s : LayerState) : List (Event × List Event) → LayerState × List Event × Bool
  | [] => (s, [], false)
  | (e, produced) :: rest =>
    let s := SimpleLayer.handle_event s e
    let s := { s with events := s.events ++ produced }
    if s.should_exit then (s, [e], true)
    else
      let (s, handled, ret) := drainLoopP s rest
      (s, e :: handled, ret)

/-- One protocol callback deliverable during the poll/dispatch phase of a
`run` iteration. -/
inductive Callback where
  | frame
  | configure (new_size : Nat × Nat)
  | closed
  | press_key (key : KeyEvent)
  | release_key (key : KeyEvent)
  | kbd_enter (surface : Surface)
  | kbd_leave (surface : Surface)
  | update_modifiers (m : Nat)
  | pointer_frame (events : List PointerEvent)
  | new_capability (c : Capability) (obj : Nat)
  | remove_capability (c : Capability)
deriving Repr

/-- Deliver one protocol callback to its `LayerState` handler, collecting
any draw actions it performs. -/
def dispatchCb (s : LayerState) : Callback → LayerState × List DrawAct
  | .frame => s.frame
  | .configure sz => s.configure sz
  | .closed => (s.closed, [])
  | .press_key k => (s.press_key k, [])
  | .release_key k => (s.release_key k, [])
  | .kbd_enter srf => (s.kbd_enter srf, [])
  | .kbd_leave srf => (s.kbd_leave srf, [])
  | .update_modifiers m => (s.update_modifiers m, [])
  | .pointer_frame pes => (s.pointer_frame pes, [])
  | .new_capability c obj => (s.new_capability c obj, [])
  | .remove_capability c => (s.remove_capability c, [])

/-- The poll/dispatch phase of one `run` iteration: deliver the pending
callbacks in order. -/
def dispatch (s : LayerState) : List Callback → LayerState × List DrawAct
  | [] => (s, [])
  | cb :: rest =>
    let r := dispatchCb s cb
    let r2 := dispatch r.1 rest
    (r2.1, r.2 ++ r2.2)

/-- `SimpleLayer::run`, with the protocol input modelled as one list of
pending callbacks per loop iteration: each iteration dispatches its
callbacks, then drains the event queue, returning as soon as the drain
observes the termination flag.  Returns the final state, all draw actions
performed, all events `handle_event` observed, and whether `run`
returned (false only when the modelled input ran out first). -/
def run (s : LayerState) : List (List Callback) → LayerState × List DrawAct × List Event × Bool
  | [] => (s, [], [], false)
  | cbs :: rest =>
    let d := dispatch s cbs
    let t := runTick d.1
    if t.2.2 then (t.1, d.2, t.2.1, true)
    else
      let r := run t.1 rest
      (r.1, d.2 ++ r.2.1, t.2.1 ++ r.2.2.1, r.2.2.2)

/-- The surface-creation requests `SimpleLayer::new` issues from its
`Opts` (`src/window/wayland.rs:94-113`): layer and namespace go into
`create_layer_surface`, the anchor is set only when present, then margin,
size and exclusive zone are set. -/
structure SurfaceRequest where
  layer : WlrLayer
  ns : Option String
  anchor_set : Option Anchor
  margin : Margin
  size : Nat × Nat
  exclusive_zone : Int
deriving DecidableEq, Repr

/-- The initial `LayerState` built by `SimpleLayer::new`. -/
def initState (opts : Opts) (surface : Surface) : LayerState :=
  { should_exit := false, first_configure := true,
    width := opts.width, height := opts.height,
    exclusive_zone := opts.exclusive_zone, surface := surface,
    pointer := none, keyboard := none, keyboard_focus := false,
    events := [], modifiers := Modifiers.default }

namespace SimpleLayer

/-- `SimpleLayer::new`: the surface request derived from `opts` together
with the initial session state (`surface` is the id the compositor
assigns to the created surface). -/
def new (opts : Opts) (surface : Surface) : SurfaceRequest × LayerState :=
  ({ layer := opts.layer.toWlr, ns := opts.ns, anchor_set := opts.anchor,
     margin := opts.margin, size := (opts.width, opts.height),
     exclusive_zone := opts.exclusive_zone },
   initState opts surface)

end SimpleLayer

/-- The `anchor` field of a config table is absent or a well-typed `u32`
(so the very first read `Opts::from_lua` performs does not panic). -/
def Lua.anchorFieldOk (t : List (String × Lua.Value)) : Bool :=
  match Lua.getField t "anchor" with
  | .vnil => true
  | .int n => decide (0 ≤ n ∧ n < 4294967296)
  | _ => false

/-- Field `k` of a config table is present as a well-typed `u32`. -/
def Lua.u32FieldOk (t : List (String × Lua.Value)) (k : String) : Bool :=
  match Lua.getField t k with
  | .int n => decide (0 ≤ n ∧ n < 4294967296)
  | _ => false

/-- Iterated `SimpleLayer::exit`. -/
def exitN (s : LayerState) : Nat → LayerState
  | 0 => s
  | n + 1 => SimpleLayer.exit (exitN s n)

/-- An event's attached modifiers (when it has any) are all false. -/
def eventModsOk : Event → Bool
  | .PointerButtonPressed _ m => m == Modifiers.default
  | .PointerButtonReleased _ m => m == Modifiers.default
  | .KeyboardKeyPressed _ m => m == Modifiers.default
  | .KeyboardKeyReleased _ m => m == Modifiers.default
  | _ => true

/-- The stored modifiers are all false and every queued event satisfies
`eventModsOk`. -/
def stateModsOk (s : LayerState) : Bool :=
  s.modifiers == Modifiers.default && s.events.all eventModsOk

section Theorems

/-- `handle_event` only logs non-`Exit` events: the state is unchanged. -/
theorem SimpleLayer.handle_event_ne (s : LayerState) (e : Event)
    (h : e ≠ .Exit) : SimpleLayer.handle_event s e = s := by
  cases e <;> first
    | rfl
    | exact absurd rfl h

/-- `handle_event` never clears the termination flag. -/
theorem SimpleLayer.handle_event_flag (s : LayerState) (e : Event)
    (h : s.should_exit = true) :
    (SimpleLayer.handle_event s e).should_exit = true := by
  cases e <;> simp [SimpleLayer.handle_event, h]

/-- A drain over exit-free events with the flag down handles everything
in order and does not return. -/
theorem drainLoop_no_exit (es : List Event) (s : LayerState)
    (hs : s.should_exit = false) (he : ∀ e ∈ es, e ≠ Event.Exit) :
    drainLoop s es = (s, es, false) := by
  induction es generalizing s with
  | nil => rfl
  | cons e rest ih =>
    have h1 : SimpleLayer.handle_event s e = s :=
      SimpleLayer.handle_event_ne s e (he e (by simp))
    simp [drainLoop, h1, hs, ih s hs (fun x hx => he x (by simp [hx]))]

/-- A drain whose input holds an `Exit` after exit-free events handles
exactly the prefix up to and including that `Exit`, sets the flag, and
returns; everything after the `Exit` is never handled. -/
theorem drainLoop_exit (es : List Event) (rest : List Event) (s : LayerState)
    (hs : s.should_exit = false) (he : ∀ e ∈ es, e ≠ Event.Exit) :
    drainLoop s (es ++ Event.Exit :: rest)
      = ({ s with should_exit := true }, es ++ [Event.Exit], true) := by
  induction es generalizing s with
  | nil => simp [drainLoop, SimpleLayer.handle_event]
  | cons e es ih =>
    have h1 : SimpleLayer.handle_event s e = s :=
      SimpleLayer.handle_event_ne s e (he e (by simp))
    simp [drainLoop, h1, hs, ih s hs (fun x hx => he x (by simp [hx]))]

/-- A drain that starts with the termination flag already up returns
after the very first event. -/
theorem drainLoop_flag (s : LayerState) (e : Event) (es : List Event)
    (hs : s.should_exit = true) :
    drainLoop s (e :: es) = (SimpleLayer.handle_event s e, [e], true) := by
  simp [drainLoop, SimpleLayer.handle_event_flag s e hs]

/-- A producer-interleaved drain over exit-free events handles the same
events in the same order as the plain drain, and every produced event
ends up (in order) in the live queue. -/
theorem drainLoopP_no_exit (input : List (Event × List Event)) (s : LayerState)
    (hs : s.should_exit = false) (he : ∀ p ∈ input, p.1 ≠ Event.Exit) :
    drainLoopP s input
      = ({ s with events := s.events ++ (input.map Prod.snd).flatten },
         input.map Prod.fst, false) := by
  induction input generalizing s with
  | nil => simp [drainLoopP]
  | cons p rest ih =>
    obtain ⟨e, produced⟩ := p
    have h1 : SimpleLayer.handle_event s e = s :=
      SimpleLayer.handle_event_ne s e (he (e, produced) (by simp))
    simp [drainLoopP, h1, hs]
    rw [ih _ rfl (fun x hx => he x (by simp [hx]))]
    simp

/-- `pfStep` only appends events; every other field is untouched. -/
theorem LayerState.pfStep_frame (s : LayerState) (e : PointerEvent) :
    ∃ app, LayerState.pfStep s e = { s with events := s.events ++ app } := by
  obtain ⟨srf, pos, k⟩ := e
  unfold LayerState.pfStep
  dsimp only
  split
  · exact ⟨[], by rw [List.append_nil]⟩
  · cases k
    case Enter => exact ⟨_, rfl⟩
    case Leave => exact ⟨_, rfl⟩
    case Motion => exact ⟨_, rfl⟩
    case Press => exact ⟨_, rfl⟩
    case Release => exact ⟨_, rfl⟩
    case Axis => exact ⟨[], by rw [List.append_nil]⟩

/-- `pointer_frame` only appends events. -/
theorem LayerState.pointer_frame_frame (pes : List PointerEvent) (s : LayerState) :
    ∃ app, LayerState.pointer_frame s pes = { s with events := s.events ++ app } := by
  induction pes generalizing s with
  | nil => exact ⟨[], by simp [LayerState.pointer_frame]⟩
  | cons e pes ih =>
    obtain ⟨a1, h1⟩ := LayerState.pfStep_frame s e
    obtain ⟨a2, h2⟩ := ih (LayerState.pfStep s e)
    refine ⟨a1 ++ a2, ?_⟩
    have : LayerState.pointer_frame s (e :: pes)
        = LayerState.pointer_frame (LayerState.pfStep s e) pes := rfl
    rw [this, h2, h1]
    simp

/-- Dropping the pointer events that target a foreign surface before the
loop changes nothing: the loop already skips them. -/
theorem LayerState.pointer_frame_filter (pes : List PointerEvent)
    (s : LayerState) (srf : Surface) (h : s.surface = srf) :
    LayerState.pointer_frame s (pes.filter (fun e => e.surface == srf))
      = LayerState.pointer_frame s pes := by
  induction pes generalizing s with
  | nil => rfl
  | cons e pes ih =>
    by_cases hc : e.surface = srf
    · have hf : (e.surface == srf) = true := by simp [hc]
      obtain ⟨a1, h1⟩ := LayerState.pfStep_frame s e
      have hsurf : (LayerState.pfStep s e).surface = srf := by rw [h1]; exact h
      calc LayerState.pointer_frame s ((e :: pes).filter (fun x => x.surface == srf))
          = LayerState.pointer_frame (LayerState.pfStep s e)
              (pes.filter (fun x => x.surface == srf)) := by
            simp [List.filter_cons, hf, LayerState.pointer_frame]
        _ = LayerState.pointer_frame (LayerState.pfStep s e) pes :=
            ih (LayerState.pfStep s e) hsurf
        _ = LayerState.pointer_frame s (e :: pes) := rfl
    · have hf : (e.surface == srf) = false := by simp [hc]
      have hskip : LayerState.pfStep s e = s := by
        unfold LayerState.pfStep
        rw [if_pos (by rw [h]; exact hc)]
      calc LayerState.pointer_frame s ((e :: pes).filter (fun x => x.surface == srf))
          = LayerState.pointer_frame s (pes.filter (fun x => x.surface == srf)) := by
            simp [List.filter_cons, hf]
        _ = LayerState.pointer_frame s pes := ih s h
        _ = LayerState.pointer_frame (LayerState.pfStep s e) pes := by rw [hskip]
        _ = LayerState.pointer_frame s (e :: pes) := rfl

/-- Every callback only appends to the event queue. -/
theorem dispatchCb_events (s : LayerState) (cb : Callback) :
    ∃ app, (dispatchCb s cb).1.events = s.events ++ app := by
  cases cb with
  | frame => exact ⟨[], by simp [dispatchCb, LayerState.frame, LayerState.draw]⟩
  | configure sz =>
    refine ⟨[], ?_⟩
    simp only [dispatchCb, LayerState.configure]
    split <;> simp [LayerState.draw]
  | closed => exact ⟨[Event.Exit], rfl⟩
  | press_key k => exact ⟨_, rfl⟩
  | release_key k => exact ⟨_, rfl⟩
  | kbd_enter srf =>
    refine ⟨[], ?_⟩
    simp only [dispatchCb, LayerState.kbd_enter]
    split <;> simp
  | kbd_leave srf =>
    refine ⟨[], ?_⟩
    simp only [dispatchCb, LayerState.kbd_leave]
    split <;> simp
  | update_modifiers m => exact ⟨[], by simp [dispatchCb, LayerState.update_modifiers]⟩
  | pointer_frame pes =>
    obtain ⟨app, hp⟩ := LayerState.pointer_frame_frame pes s
    exact ⟨app, by simp [dispatchCb, hp]⟩
  | new_capability c obj =>
    refine ⟨[], ?_⟩
    simp only [dispatchCb, LayerState.new_capability]
    split <;> split <;> simp
  | remove_capability c =>
    refine ⟨[], ?_⟩
    simp only [dispatchCb, LayerState.remove_capability]
    split <;> split <;> simp

/-- No callback clears the termination flag. -/
theorem dispatchCb_flag (s : LayerState) (cb : Callback)
    (h : s.should_exit = true) : (dispatchCb s cb).1.should_exit = true := by
  cases cb with
  | frame => exact h
  | configure sz =>
    simp only [dispatchCb, LayerState.configure]
    split <;> simp [LayerState.draw, h]
  | closed => rfl
  | press_key k => exact h
  | release_key k => exact h
  | kbd_enter srf =>
    simp only [dispatchCb, LayerState.kbd_enter]
    split <;> simp [h]
  | kbd_leave srf =>
    simp only [dispatchCb, LayerState.kbd_leave]
    split <;> simp [h]
  | update_modifiers m => exact h
  | pointer_frame pes =>
    obtain ⟨app, hp⟩ := LayerState.pointer_frame_frame pes s
    simp [dispatchCb, hp, h]
  | new_capability c obj =>
    simp only [dispatchCb, LayerState.new_capability]
    split <;> split <;> simp [h]
  | remove_capability c =>
    simp only [dispatchCb, LayerState.remove_capability]
    split <;> split <;> simp [h]

/-- A whole dispatch phase only appends to the event queue. -/
theorem dispatch_events (cbs : List Callback) (s : LayerState) :
    ∃ app, (dispatch s cbs).1.events = s.events ++ app := by
  induction cbs generalizing s with
  | nil => exact ⟨[], by simp [dispatch]⟩
  | cons cb rest ih =>
    obtain ⟨a1, h1⟩ := dispatchCb_events s cb
    obtain ⟨a2, h2⟩ := ih (dispatchCb s cb).1
    exact ⟨a1 ++ a2, by simp [dispatch, h2, h1]⟩

/-- A whole dispatch phase never clears the termination flag. -/
theorem dispatch_flag (cbs : List Callback) (s : LayerState)
    (h : s.should_exit = true) : (dispatch s cbs).1.should_exit = true := by
  induction cbs generalizing s with
  | nil => exact h
  | cons cb rest ih =>
    simpa [dispatch] using ih (dispatchCb s cb).1 (dispatchCb_flag s cb h)

/-- Dispatch splits over concatenation of callback batches. -/
theorem dispatch_append (xs ys : List Callback) (s : LayerState) :
    dispatch s (xs ++ ys)
      = ((dispatch (dispatch s xs).1 ys).1,
         (dispatch s xs).2 ++ (dispatch (dispatch s xs).1 ys).2) := by
  induction xs generalizing s with
  | nil => simp [dispatch]
  | cons cb rest ih =>
    simp [dispatch, ih]

/-- If the flag is up and the queue is non-empty when the drain starts,
the drain returns. -/
theorem runTick_ret (s : LayerState) (hs : s.should_exit = true)
    (he : s.events ≠ []) : (runTick s).2.2 = true := by
  unfold runTick
  cases hev : s.events with
  | nil => exact absurd hev he
  | cons e es =>
    rw [drainLoop_flag { s with events := [] } e es hs]


/-- `Lua.anchorFieldOk` makes the anchor read succeed. -/
theorem Opts.readAnchorBits_ok (t : List (String × Lua.Value))
    (h : Lua.anchorFieldOk t = true) : ∃ b, Opts.readAnchorBits t = .ok b := by
  unfold Lua.anchorFieldOk at h
  unfold Opts.readAnchorBits
  cases hg : Lua.getField t "anchor" with
  | vnil => exact ⟨none, rfl⟩
  | int n =>
    rw [hg] at h
    simp only [decide_eq_true_eq] at h
    exact ⟨some n.toNat, by simp [Lua.toU32, h, Except.map]⟩
  | str s => rw [hg] at h; simp at h
  | table f => rw [hg] at h; simp at h

/-- `Lua.u32FieldOk` makes the corresponding `expect`-guarded read
succeed. -/
theorem Opts.readU32_ok (t : List (String × Lua.Value)) (k msg : String)
    (h : Lua.u32FieldOk t k = true) : ∃ n, Opts.readU32 t k msg = .ok n := by
  unfold Lua.u32FieldOk at h
  unfold Opts.readU32
  cases hg : Lua.getField t k with
  | int n =>
    rw [hg] at h
    simp only [decide_eq_true_eq] at h
    exact ⟨n.toNat, by simp [Lua.toU32, h]⟩
  | vnil => rw [hg] at h; simp at h
  | str s => rw [hg] at h; simp at h
  | table f => rw [hg] at h; simp at h

/-- A missing `u32` field aborts with the `expect` message. -/
theorem Opts.readU32_vnil (t : List (String × Lua.Value)) (k msg : String)
    (h : Lua.getField t k = .vnil) : Opts.readU32 t k msg = .error msg := by
  unfold Opts.readU32
  rw [h]
  rfl

/-- A missing `layer` field aborts naming the layer field. -/
theorem Opts.readLayer_vnil (t : List (String × Lua.Value))
    (h : Lua.getField t "layer" = .vnil) :
    Opts.readLayer t = .error "a window must have a set layer" := by
  unfold Opts.readLayer
  rw [h]

/-- Claim C1 (amended): in `Opts::from_lua`, provided the reads that
precede the field in Rust evaluation order are well-typed (the `anchor`
field absent or a valid `u32`; for `height` additionally `width`
well-typed; for `layer` additionally `height`), the absence of each
required field `width` / `height` / `layer` is a fatal error whose
message names that field; and on every successful extraction the absent
optional fields take their defaults: `exclusive_zone = -1`, every margin
component `0`, `namespace = none`. -/
theorem C1_config_validation (t : List (String × Lua.Value)) :
    (Lua.anchorFieldOk t = true → Lua.getField t "width" = .vnil →
      Opts.from_lua (.table t) = .error "a window must have a set width")
  ∧ (Lua.anchorFieldOk t = true → Lua.u32FieldOk t "width" = true →
      Lua.getField t "height" = .vnil →
      Opts.from_lua (.table t) = .error "a window must have a set height")
  ∧ (Lua.anchorFieldOk t = true → Lua.u32FieldOk t "width" = true →
      Lua.u32FieldOk t "height" = true → Lua.getField t "layer" = .vnil →
      Opts.from_lua (.table t) = .error "a window must have a set layer")
  ∧ (∀ o, Opts.from_lua (.table t) = .ok o →
      (Lua.getField t "exclusive_zone" = .vnil → o.exclusive_zone = -1)
    ∧ (Lua.getField t "namespace" = .vnil → o.ns = none)
    ∧ (Lua.getField t "margin" = .vnil → o.margin = Margin.default)) := by
  refine ⟨?_, ?_, ?_, ?_⟩
  · intro ha hw
    obtain ⟨b, hb⟩ := Opts.readAnchorBits_ok t ha
    simp [Opts.from_lua, Opts.from_lua_table, hb,
      Opts.readU32_vnil t "width" "a window must have a set width" hw]
  · intro ha hwo hh
    obtain ⟨b, hb⟩ := Opts.readAnchorBits_ok t ha
    obtain ⟨w, hw⟩ := Opts.readU32_ok t "width" "a window must have a set width" hwo
    simp [Opts.from_lua, Opts.from_lua_table, hb, hw,
      Opts.readU32_vnil t "height" "a window must have a set height" hh]
  · intro ha hwo hho hl
    obtain ⟨b, hb⟩ := Opts.readAnchorBits_ok t ha
    obtain ⟨w, hw⟩ := Opts.readU32_ok t "width" "a window must have a set width" hwo
    obtain ⟨h, hh⟩ := Opts.readU32_ok t "height" "a window must have a set height" hho
    simp [Opts.from_lua, Opts.from_lua_table, hb, hw, hh, Opts.readLayer_vnil t hl]
  · intro o h
    simp only [Opts.from_lua] at h
    unfold Opts.from_lua_table at h
    split at h
    · exact Except.noConfusion h
    rename_i bits hb
    split at h
    · exact Except.noConfusion h
    rename_i width hw
    split at h
    · exact Except.noConfusion h
    rename_i height hh
    split at h
    · exact Except.noConfusion h
    rename_i layer hl
    split at h
    · exact Except.noConfusion h
    rename_i ns hns
    split at h
    · exact Except.noConfusion h
    rename_i margin hm
    split at h
    · exact Except.noConfusion h
    rename_i ez hz
    injection h with h
    subst h
    refine ⟨?_, ?_, ?_⟩
    · intro hv
      have h2 : Opts.readExclusiveZone t = Except.ok (-1) := by
        unfold Opts.readExclusiveZone
        rw [hv]
      rw [h2] at hz
      injection hz with hz
      exact hz.symm
    · intro hv
      have h2 : Opts.readNamespace t = Except.ok none := by
        unfold Opts.readNamespace
        rw [hv]
      rw [h2] at hns
      injection hns with hns
      exact hns.symm
    · intro hv
      have h2 : Opts.readMargin t = Except.ok Margin.default := by
        unfold Opts.readMargin
        rw [hv]
      rw [h2] at hm
      injection hm with hm
      exact hm.symm

/-- Witness for C1: the empty config table aborts naming `width`; a table
with only the required fields extracts with the documented defaults. -/
theorem C1_config_validation_witness :
    (Opts.from_lua (.table []) = .error "a window must have a set width") ∧
    ∃ o, Opts.from_lua (.table [("width", Lua.Value.int 8),
        ("height", Lua.Value.int 9), ("layer", Lua.Value.str "top")]) = .ok o
      ∧ o.exclusive_zone = -1 ∧ o.ns = none ∧ o.margin = Margin.default := by
  constructor
  · exact (C1_config_validation []).1 rfl rfl
  · have h := (C1_config_validation [("width", Lua.Value.int 8),
      ("height", Lua.Value.int 9), ("layer", Lua.Value.str "top")]).2.2.2
      { width := 8, height := 9, exclusive_zone := -1, layer := .Top,
        anchor := none, margin := Margin.default, ns := none } (by rfl)
    exact ⟨_, by rfl, h.1 rfl, h.2.1 rfl, h.2.2 rfl⟩

/-- Counterexample for C1 as frozen: in the table `{width = {}}` the
required field `height` is absent, yet the fatal message names `width`
(present but ill-typed, and inspected first), not the missing field. -/
theorem C1_counterexample :
    Lua.getField [("width", Lua.Value.table [])] "height" = .vnil ∧
    Opts.from_lua (.table [("width", Lua.Value.table [])])
      = .error "a window must have a set width" ∧
    "a window must have a set width" ≠ "a window must have a set height" :=
  ⟨rfl, rfl, by decide⟩

/-- Claim C2: every configure sets the session's width and height to the
compositor's proposal with zero components replaced by 256; the configure
draws immediately exactly when it is the first configure (and clears the
first-configure mark); and across all protocol callbacks, a draw is
triggered only by a frame callback or by a first configure — never by a
later configure. -/
theorem C2_configure_size_and_first_draw (s : LayerState) (sz : Nat × Nat) :
    ((s.configure sz).1.width = if sz.1 = 0 then 256 else sz.1)
  ∧ ((s.configure sz).1.height = if sz.2 = 0 then 256 else sz.2)
  ∧ ((s.configure sz).1.first_configure = false)
  ∧ ((s.configure sz).2 ≠ [] ↔ s.first_configure = true)
  ∧ (∀ cb, (dispatchCb s cb).2 ≠ [] →
      cb = Callback.frame
        ∨ (s.first_configure = true ∧ ∃ q, cb = Callback.configure q)) := by
  refine ⟨?_, ?_, ?_, ?_, ?_⟩
  · cases hf : s.first_configure <;>
      simp [LayerState.configure, LayerState.draw, hf]
  · cases hf : s.first_configure <;>
      simp [LayerState.configure, LayerState.draw, hf]
  · cases hf : s.first_configure <;>
      simp [LayerState.configure, LayerState.draw, hf]
  · cases hf : s.first_configure <;>
      simp [LayerState.configure, LayerState.draw, hf]
  · intro cb h
    cases cb with
    | frame => exact Or.inl rfl
    | configure q =>
      cases hf : s.first_configure with
      | false =>
        exact absurd (by simp [dispatchCb, LayerState.configure, hf]) h
      | true => exact Or.inr ⟨rfl, q, rfl⟩
    | closed => exact absurd rfl h
    | press_key k => exact absurd rfl h
    | release_key k => exact absurd rfl h
    | kbd_enter srf => exact absurd rfl h
    | kbd_leave srf => exact absurd rfl h
    | update_modifiers m => exact absurd rfl h
    | pointer_frame pes => exact absurd rfl h
    | new_capability c obj => exact absurd rfl h
    | remove_capability c => exact absurd rfl h

/-- Witness for C2 at a concrete configure of proposed size (0, 300). -/
theorem C2_configure_witness :
    ((initState Opts.default 0).configure (0, 300)).1.width = 256
  ∧ ((initState Opts.default 0).configure (0, 300)).1.height = 300
  ∧ (Callback.frame = Callback.frame
      ∨ ((initState Opts.default 0).first_configure = true
          ∧ ∃ q, Callback.frame = Callback.configure q)) := by
  have h := C2_configure_size_and_first_draw (initState Opts.default 0) (0, 300)
  refine ⟨by simpa using h.1, by simpa using h.2.1,
    h.2.2.2.2 Callback.frame (by decide)⟩

/-- Claim C3 (amended): a drain over a queue that holds no `Exit` (with
the termination flag down) is FIFO and exhaustive — `handle_event`
observes exactly the enqueued events in arrival order and the queue is
empty afterwards; and because the live queue is swapped for an empty one
before iterating, events appended by producers during the drain do not
disturb the iteration and are all preserved, in order, in the live
queue.  (When the queue does contain an `Exit`, only the prefix up to
that `Exit` is observed — see the counterexample and claim C5.) -/
theorem C3_fifo_drain (s : LayerState)
    (hs : s.should_exit = false) (he : ∀ e ∈ s.events, e ≠ Event.Exit) :
    runTick s = ({ s with events := [] }, s.events, false)
  ∧ (∀ input : List (Event × List Event), input.map Prod.fst = s.events →
      drainLoopP { s with events := [] } input
        = ({ s with events := (input.map Prod.snd).flatten },
           s.events, false)) := by
  constructor
  · unfold runTick
    exact drainLoop_no_exit s.events { s with events := [] } hs he
  · intro input hmap
    have he2 : ∀ p ∈ input, p.1 ≠ Event.Exit := by
      intro p hp
      exact he p.1 (hmap ▸ List.mem_map_of_mem Prod.fst hp)
    have h := drainLoopP_no_exit input { s with events := [] } hs he2
    simpa [hmap] using h

/-- Witness for C3: two non-exit events are handled in order with the
queue left empty, and with a producer appending mid-drain the appended
event survives in the live queue. -/
theorem C3_fifo_drain_witness :
    runTick { initState Opts.default 0 with
        events := [Event.KeyboardEntered, Event.PointerLeft] }
      = ({ initState Opts.default 0 with events := [] },
         [Event.KeyboardEntered, Event.PointerLeft], false)
  ∧ drainLoopP { initState Opts.default 0 with events := [] }
        [(Event.KeyboardEntered, [Event.KeyboardLeft]), (Event.PointerLeft, [])]
      = ({ initState Opts.default 0 with events := [Event.KeyboardLeft] },
         [Event.KeyboardEntered, Event.PointerLeft], false) := by
  have h := C3_fifo_drain { initState Opts.default 0 with
    events := [Event.KeyboardEntered, Event.PointerLeft] } rfl (by decide)
  have h2 := h.2 [(Event.KeyboardEntered, [Event.KeyboardLeft]),
    (Event.PointerLeft, [])] rfl
  exact ⟨h.1, by simpa using h2⟩

/-- Counterexample for C3 as frozen: with queue `[Exit, KeyboardEntered]`
the drain observes only `[Exit]` — the enqueued events are not all
observed, so draining is not exhaustive for queues containing `Exit`. -/
theorem C3_counterexample :
    (runTick { initState Opts.default 0 with
        events := [Event.Exit, Event.KeyboardEntered] }).2.1 = [Event.Exit]
  ∧ (runTick { initState Opts.default 0 with
        events := [Event.Exit, Event.KeyboardEntered] }).2.1
      ≠ [Event.Exit, Event.KeyboardEntered] := by
  exact ⟨rfl, by decide⟩

/-- Claim C4: input events aimed at another session's surface are
discarded at the source.  Pointer events for a foreign surface are
skipped by the loop (pre-filtering them away changes nothing, and a batch
aimed entirely at foreign surfaces leaves the state untouched).  The only
keyboard callbacks that carry a target surface, enter and leave, change
nothing at all for a foreign surface, and append no event even for the
own surface. -/
theorem C4_foreign_surface_discard (s : LayerState) (pes : List PointerEvent)
    (srf : Surface) (h : srf ≠ s.surface) :
    (LayerState.pointer_frame s (pes.filter (fun e => e.surface == s.surface))
      = LayerState.pointer_frame s pes)
  ∧ ((∀ e ∈ pes, e.surface ≠ s.surface) → LayerState.pointer_frame s pes = s)
  ∧ (LayerState.kbd_enter s srf = s ∧ LayerState.kbd_leave s srf = s)
  ∧ ((LayerState.kbd_enter s s.surface).events = s.events
      ∧ (LayerState.kbd_leave s s.surface).events = s.events) := by
  refine ⟨LayerState.pointer_frame_filter pes s s.surface rfl, ?_, ⟨?_, ?_⟩, ?_⟩
  · intro hall
    have hf : pes.filter (fun e => e.surface == s.surface) = [] := by
      rw [List.filter_eq_nil_iff]
      intro a ha
      simpa using hall a ha
    rw [← LayerState.pointer_frame_filter pes s s.surface rfl, hf]
    rfl
  · unfold LayerState.kbd_enter
    rw [if_neg (fun hh => h hh.symm)]
  · unfold LayerState.kbd_leave
    rw [if_neg (fun hh => h hh.symm)]
  · constructor <;> simp [LayerState.kbd_enter, LayerState.kbd_leave]

/-- Witness for C4: a pointer batch for surface 7 and a keyboard enter
for surface 0 leave a session owning surface 5 unchanged. -/
theorem C4_foreign_surface_witness :
    LayerState.pointer_frame (initState Opts.default 5)
        [{ surface := 7, position := (1, 2), kind := PointerEventKind.Motion }]
      = initState Opts.default 5
  ∧ LayerState.kbd_enter (initState Opts.default 5) 0
      = initState Opts.default 5 := by
  have h := C4_foreign_surface_discard (initState Opts.default 5)
    [{ surface := 7, position := (1, 2), kind := PointerEventKind.Motion }]
    0 (by decide)
  exact ⟨h.2.1 (by decide), h.2.2.1.1⟩


/-- Claim C5 (amended): a compositor-initiated close enqueues an `Exit`
event and sets the termination flag; `run` then returns at the end of
that very tick — no later tick (hence no drain-phase or later-tick draw)
runs, and once the drain handles an `Exit`, everything after it in the
queue is never processed.  However, a frame or configure callback still
pending in the same dispatch batch after the close can invoke one more
draw before the drain observes the flag — see the counterexample. -/
theorem C5_close_terminates (s : LayerState) (pre post : List Callback)
    (rest : List (List Callback)) (es1 es2 : List Event) (st : LayerState)
    (hs : st.should_exit = false) (he : ∀ e ∈ es1, e ≠ Event.Exit) :
    ((s.closed).events = s.events ++ [Event.Exit]
      ∧ (s.closed).should_exit = true)
  ∧ (run s ((pre ++ Callback.closed :: post) :: rest)
      = run s [pre ++ Callback.closed :: post])
  ∧ ((run s ((pre ++ Callback.closed :: post) :: rest)).2.1
      = (dispatch s (pre ++ Callback.closed :: post)).2)
  ∧ (drainLoop st (es1 ++ Event.Exit :: es2)
      = ({ st with should_exit := true }, es1 ++ [Event.Exit], true)) := by
  have hkey : (runTick (dispatch s (pre ++ Callback.closed :: post)).1).2.2
      = true := by
    have hd := dispatch_append pre (Callback.closed :: post) s
    have hflag : (dispatch (dispatch s pre).1.closed post).1.should_exit
        = true := dispatch_flag post (dispatch s pre).1.closed rfl
    obtain ⟨app, happ⟩ := dispatch_events post (dispatch s pre).1.closed
    have hne : (dispatch (dispatch s pre).1.closed post).1.events ≠ [] := by
      rw [happ]
      simp [LayerState.closed]
    have h1 : (dispatch s (pre ++ Callback.closed :: post)).1
        = (dispatch (dispatch s pre).1.closed post).1 := by
      rw [hd]
      rfl
    rw [h1]
    exact runTick_ret _ hflag hne
  have hrun : ∀ rest2 : List (List Callback),
      run s ((pre ++ Callback.closed :: post) :: rest2)
        = ((runTick (dispatch s (pre ++ Callback.closed :: post)).1).1,
           (dispatch s (pre ++ Callback.closed :: post)).2,
           (runTick (dispatch s (pre ++ Callback.closed :: post)).1).2.1,
           true) := by
    intro rest2
    simp [run, hkey]
  refine ⟨⟨rfl, rfl⟩, ?_, ?_, drainLoop_exit es1 es2 st hs he⟩
  · rw [hrun rest, hrun []]
  · rw [hrun rest]

/-- Witness for C5: the close tick alone determines the outcome, and a
drain stops at the `Exit` it handles. -/
theorem C5_close_witness :
    run (initState Opts.default 0) [[Callback.closed], [Callback.frame]]
      = run (initState Opts.default 0) [[Callback.closed]]
  ∧ drainLoop (initState Opts.default 0)
        [Event.PointerLeft, Event.Exit, Event.KeyboardLeft]
      = ({ initState Opts.default 0 with should_exit := true },
         [Event.PointerLeft, Event.Exit], true) := by
  have h := C5_close_terminates (initState Opts.default 0) [] []
    [[Callback.frame]] [Event.PointerLeft] [Event.KeyboardLeft]
    (initState Opts.default 0) rfl (by decide)
  exact ⟨h.2.1, h.2.2.2⟩

/-- Counterexample for C5 as frozen: when a frame callback is pending in
the same dispatch batch right after the close, `run` still performs a
draw (a non-empty draw trace) after the close set the termination flag,
before returning. -/
theorem C5_counterexample :
    (dispatch (initState Opts.default 0) [Callback.closed]).1.should_exit
      = true
  ∧ (run (initState Opts.default 0)
        [[Callback.closed, Callback.frame]]).2.2.2 = true
  ∧ (run (initState Opts.default 0)
        [[Callback.closed, Callback.frame]]).2.1 ≠ [] := by
  exact ⟨rfl, rfl, by decide⟩

/-- Claim C6: one draw cycle performs, in order: buffer acquisition,
canvas construction, clear to the fixed background colour, fps overlay,
the script draw call, full-region damage (never partial), the request
for the next frame notification, then attach and commit; exactly one
frame request is issued per cycle, and it precedes the attach/commit
submission. -/
theorem C6_draw_cycle (s : LayerState) :
    (s.draw).2 = [DrawAct.create_buffer s.width s.height (s.width * 4),
      DrawAct.canvas_new s.width s.height, DrawAct.clear 0xFF707070,
      DrawAct.draw_fps, DrawAct.lua_draw,
      DrawAct.damage_buffer 0 0 s.width s.height,
      DrawAct.frame_request, DrawAct.attach, DrawAct.commit]
  ∧ (∀ (x y : Int) (w h : Nat),
      DrawAct.damage_buffer x y w h ∈ (s.draw).2 →
        x = 0 ∧ y = 0 ∧ w = s.width ∧ h = s.height)
  ∧ ((s.draw).2.filter (fun a => match a with
      | DrawAct.frame_request => true
      | _ => false) = [DrawAct.frame_request])
  ∧ (s.draw).2[6]? = some DrawAct.frame_request
  ∧ (s.draw).2[7]? = some DrawAct.attach
  ∧ (s.draw).2[8]? = some DrawAct.commit := by
  refine ⟨rfl, ?_, rfl, rfl, rfl, rfl⟩
  intro x y w h hmem
  simpa [LayerState.draw] using hmem

/-- Witness for C6: the only damage recorded by a 100×100 session's draw
is the full region. -/
theorem C6_draw_witness :
    (0 : Int) = 0 ∧ (0 : Int) = 0
  ∧ 100 = (initState Opts.default 0).width
  ∧ 100 = (initState Opts.default 0).height := by
  exact (C6_draw_cycle (initState Opts.default 0)).2.1 0 0 100 100 (by decide)

/-- Claim C7: width, height, layer and anchors round-trip unchanged from
`Opts` into the negotiated surface request (the layer through the
variant-preserving protocol map), and the scenario config
`{width = 100, height = 100, layer = "bottom", anchor = 3}` yields a
request of size 100×100, layer Bottom, anchors top and bottom, and the
default exclusive zone -1. -/
theorem C7_surface_roundtrip :
    (∀ (opts : Opts) (srf : Surface),
        ((SimpleLayer.new opts srf).1.size = (opts.width, opts.height))
      ∧ ((SimpleLayer.new opts srf).1.layer = opts.layer.toWlr)
      ∧ ((SimpleLayer.new opts srf).1.anchor_set = opts.anchor)
      ∧ ((SimpleLayer.new opts srf).1.exclusive_zone = opts.exclusive_zone)
      ∧ ((SimpleLayer.new opts srf).1.margin = opts.margin))
  ∧ (Layer.toWlr Layer.Background = WlrLayer.Background
      ∧ Layer.toWlr Layer.Bottom = WlrLayer.Bottom
      ∧ Layer.toWlr Layer.Overlay = WlrLayer.Overlay
      ∧ Layer.toWlr Layer.Top = WlrLayer.Top)
  ∧ ∃ o, Opts.from_lua (.table [("width", Lua.Value.int 100),
        ("height", Lua.Value.int 100), ("layer", Lua.Value.str "bottom"),
        ("anchor", Lua.Value.int 3)]) = .ok o
      ∧ (SimpleLayer.new o 0).1
        = { layer := WlrLayer.Bottom, ns := none,
            anchor_set := some ⟨true, true, false, false⟩,
            margin := Margin.default, size := (100, 100),
            exclusive_zone := -1 } := by
  refine ⟨fun opts srf => ⟨rfl, rfl, rfl, rfl, rfl⟩,
    ⟨rfl, rfl, rfl, rfl⟩, ?_⟩
  exact ⟨{ width := 100, height := 100, exclusive_zone := -1,
           layer := .Bottom, anchor := some ⟨true, true, false, false⟩,
           margin := Margin.default, ns := none }, rfl, rfl⟩


/-- Iterating `exit` `n` times appends `n` `Exit` events. -/
theorem exitN_events (s : LayerState) (n : Nat) :
    exitN s n = { s with events := s.events ++ List.replicate n Event.Exit } := by
  induction n with
  | zero => simp [exitN]
  | succ m ih =>
    simp [exitN, ih, SimpleLayer.exit, LayerState.pushEvent,
      List.replicate_succ', List.append_assoc]

/-- Claim C8: `exit()` enqueues an `Exit` event whose handling at the
next drain terminates `run` (the drain returns with the queue empty,
having observed the prior events and the `Exit`), and `exit()` is
idempotent: calling it `n ≥ 1` times before the next drain produces
exactly the same drain outcome as calling it once. -/
theorem C8_exit_idempotent (s : LayerState) (n : Nat) (hn : 1 ≤ n)
    (hs : s.should_exit = false) (he : ∀ e ∈ s.events, e ≠ Event.Exit) :
    runTick (exitN s n) = runTick (SimpleLayer.exit s)
  ∧ (runTick (SimpleLayer.exit s)).2.2 = true
  ∧ (runTick (SimpleLayer.exit s)).2.1 = s.events ++ [Event.Exit]
  ∧ (runTick (SimpleLayer.exit s)).1.events = [] := by
  obtain ⟨m, rfl⟩ : ∃ m, n = m + 1 :=
    ⟨n - 1, (Nat.succ_pred_eq_of_pos hn).symm⟩
  have key : ∀ k : Nat, runTick (exitN s (k + 1))
      = ({ s with events := [], should_exit := true },
         s.events ++ [Event.Exit], true) := by
    intro k
    rw [exitN_events]
    show drainLoop { s with events := [] }
        (s.events ++ List.replicate (k + 1) Event.Exit) = _
    rw [List.replicate_succ]
    exact drainLoop_exit s.events (List.replicate k Event.Exit)
      { s with events := [] } hs he
  have h0 := key 0
  simp only [exitN] at h0
  refine ⟨(key m).trans h0.symm, ?_, ?_, ?_⟩
  · rw [h0]
  · rw [h0]
  · rw [h0]

/-- Witness for C8: three `exit()` calls drain exactly like one. -/
theorem C8_exit_witness :
    runTick (exitN (initState Opts.default 0) 3)
      = runTick (SimpleLayer.exit (initState Opts.default 0))
  ∧ (runTick (SimpleLayer.exit (initState Opts.default 0))).2.1
      = [Event.Exit] := by
  have h := C8_exit_idempotent (initState Opts.default 0) 3 (by decide) rfl
    (by decide)
  exact ⟨h.1, by simpa using h.2.2.1⟩

/-- Claim C9: seat capability transitions touch the keyboard / pointer
objects exactly once per genuine transition: adding a capability whose
object already exists is a no-op, adding a missing one creates exactly
that object, removing an absent one leaves the input state unchanged,
and removing a present one drops exactly that object. -/
theorem C9_capability_lifecycle (s : LayerState) (obj k : Nat) :
    (s.keyboard = some k → s.new_capability Capability.Keyboard obj = s)
  ∧ (s.pointer = some k → s.new_capability Capability.Pointer obj = s)
  ∧ (s.keyboard = none → s.new_capability Capability.Keyboard obj
      = { s with keyboard := some obj })
  ∧ (s.pointer = none → s.new_capability Capability.Pointer obj
      = { s with pointer := some obj })
  ∧ (s.keyboard = none → s.remove_capability Capability.Keyboard = s)
  ∧ (s.pointer = none → s.remove_capability Capability.Pointer = s)
  ∧ (s.keyboard = some k → s.remove_capability Capability.Keyboard
      = { s with keyboard := none })
  ∧ (s.pointer = some k → s.remove_capability Capability.Pointer
      = { s with pointer := none }) := by
  refine ⟨?_, ?_, ?_, ?_, ?_, ?_, ?_, ?_⟩ <;> intro h <;>
    simp [LayerState.new_capability, LayerState.remove_capability, h]

/-- Witness for C9: re-adding a present keyboard and removing an absent
pointer both leave the state unchanged. -/
theorem C9_capability_witness :
    LayerState.new_capability
        { initState Opts.default 0 with keyboard := some 4 }
        Capability.Keyboard 9
      = { initState Opts.default 0 with keyboard := some 4 }
  ∧ LayerState.remove_capability (initState Opts.default 0)
        Capability.Pointer
      = initState Opts.default 0 := by
  have h := C9_capability_lifecycle
    { initState Opts.default 0 with keyboard := some 4 } 9 4
  have h2 := C9_capability_lifecycle (initState Opts.default 0) 9 4
  exact ⟨h.1 rfl, h2.2.2.2.2.2.1 rfl⟩

/-- `stateModsOk` transfers along any change that keeps the modifiers and
only appends modifier-clean events. -/
theorem stateModsOk_of (s s2 : LayerState) (h : stateModsOk s = true)
    (hm : s2.modifiers = s.modifiers)
    (he : ∃ app, s2.events = s.events ++ app ∧ app.all eventModsOk = true) :
    stateModsOk s2 = true := by
  obtain ⟨app, he1, he2⟩ := he
  unfold stateModsOk at h ⊢
  rw [Bool.and_eq_true] at h ⊢
  obtain ⟨h1, h2⟩ := h
  constructor
  · rw [hm]
    exact h1
  · rw [he1, List.all_append, Bool.and_eq_true]
    exact ⟨h2, he2⟩

/-- `pfStep` preserves the all-false-modifiers invariant. -/
theorem LayerState.pfStep_mods (s : LayerState) (e : PointerEvent)
    (h : stateModsOk s = true) :
    stateModsOk (LayerState.pfStep s e) = true := by
  have hmod : (s.modifiers == Modifiers.default) = true := by
    unfold stateModsOk at h
    rw [Bool.and_eq_true] at h
    exact h.1
  obtain ⟨srf, pos, k⟩ := e
  unfold LayerState.pfStep
  dsimp only
  split
  · exact h
  · cases k
    case Enter => exact stateModsOk_of s _ h rfl ⟨_, rfl, rfl⟩
    case Leave => exact stateModsOk_of s _ h rfl ⟨_, rfl, rfl⟩
    case Motion => exact stateModsOk_of s _ h rfl ⟨_, rfl, rfl⟩
    case Press =>
      refine stateModsOk_of s _ h rfl ⟨_, rfl, ?_⟩
      simp [eventModsOk, hmod]
    case Release =>
      refine stateModsOk_of s _ h rfl ⟨_, rfl, ?_⟩
      simp [eventModsOk, hmod]
    case Axis => exact h

/-- `pointer_frame` preserves the all-false-modifiers invariant. -/
theorem LayerState.pointer_frame_mods (pes : List PointerEvent) :
    ∀ s : LayerState, stateModsOk s = true →
      stateModsOk (LayerState.pointer_frame s pes) = true := by
  induction pes with
  | nil => exact fun s h => h
  | cons e pes ih =>
    exact fun s h => ih (LayerState.pfStep s e) (LayerState.pfStep_mods s e h)

/-- Every callback preserves the all-false-modifiers invariant. -/
theorem dispatchCb_mods (s : LayerState) (cb : Callback)
    (h : stateModsOk s = true) : stateModsOk (dispatchCb s cb).1 = true := by
  cases cb with
  | frame => exact h
  | configure sz =>
    show stateModsOk (s.configure sz).1 = true
    simp only [LayerState.configure, LayerState.draw]
    split
    · exact h
    · exact h
  | closed => exact stateModsOk_of s _ h rfl ⟨[Event.Exit], rfl, rfl⟩
  | press_key key => exact stateModsOk_of s _ h rfl ⟨_, rfl, rfl⟩
  | release_key key => exact stateModsOk_of s _ h rfl ⟨_, rfl, rfl⟩
  | kbd_enter srf =>
    show stateModsOk (s.kbd_enter srf) = true
    unfold LayerState.kbd_enter
    split
    · exact h
    · exact h
  | kbd_leave srf =>
    show stateModsOk (s.kbd_leave srf) = true
    unfold LayerState.kbd_leave
    split
    · exact h
    · exact h
  | update_modifiers m => exact h
  | pointer_frame pes => exact LayerState.pointer_frame_mods pes s h
  | new_capability c obj =>
    show stateModsOk (s.new_capability c obj) = true
    unfold LayerState.new_capability
    split <;> (dsimp only; split <;> exact h)
  | remove_capability c =>
    show stateModsOk (s.remove_capability c) = true
    unfold LayerState.remove_capability
    split <;> (dsimp only; split <;> exact h)

/-- A whole dispatch phase preserves the all-false-modifiers invariant. -/
theorem dispatch_mods (cbs : List Callback) :
    ∀ s : LayerState, stateModsOk s = true →
      stateModsOk (dispatch s cbs).1 = true := by
  induction cbs with
  | nil => exact fun s h => h
  | cons cb rest ih =>
    exact fun s h => ih (dispatchCb s cb).1 (dispatchCb_mods s cb h)

/-- Claim C10: starting from the initial session state, after any
sequence of protocol callbacks the stored modifiers are still all false
and every keyboard or pointer-button event ever appended to the queue
carries all-false modifiers; the modifier-change callback never updates
the stored modifiers; and the initial state satisfies the invariant. -/
theorem C10_modifiers_invariant (s : LayerState) (cbs : List Callback)
    (h : stateModsOk s = true) :
    stateModsOk (dispatch s cbs).1 = true
  ∧ (∀ (st : LayerState) (m : Nat), LayerState.update_modifiers st m = st)
  ∧ (∀ (opts : Opts) (srf : Surface),
      stateModsOk (initState opts srf) = true) := by
  exact ⟨dispatch_mods cbs s h, fun st m => rfl, fun opts srf => rfl⟩

/-- Witness for C10: a key press, a modifier-change notification and a
pointer button press on the own surface leave the invariant intact. -/
theorem C10_modifiers_witness :
    stateModsOk (dispatch (initState Opts.default 0)
      [Callback.press_key 5, Callback.update_modifiers 7,
       Callback.pointer_frame [⟨0, (1, 2), PointerEventKind.Press⟩]]).1
      = true := by
  exact (C10_modifiers_invariant (initState Opts.default 0) _ rfl).1

end Theorems

end StatusBar
